import Mathlib

/-!
Verification of the EDHOC/COSE core of this repository.

Bytes are modelled as `List Nat` whose elements are the byte values.
The CBOR codec adapter (`cbor` module) and the EDHOC state machine
(`edhoc::api`) are not part of the published sources; they are modelled
from the specification (sections 4.A and 4.D) and marked as such.  The
COSE builder (`cose.rs`) is translated directly from the source.
-/

namespace Spec2Proof

namespace Cbor

/-- Big-endian byte representation of `n` on `k` bytes (most significant
first), as written by a CBOR encoder for multi-byte length fields. -/
def beBytes (k n : Nat) : List Nat :=
  (List.range k).reverse.map (fun i => n / 256 ^ i % 256)

/-- Value of a big-endian byte list. -/
def beVal (bs : List Nat) : Nat :=
  bs.foldl (fun acc b => acc * 256 + b) 0

/-- Modelled from the spec: the initial byte(s) of a CBOR data item of
major type `major` with argument `n`, using the shortest form (as the
canonical serde-style encoder of the missing `cbor` module does). -/
def cborHeader (major n : Nat) : List Nat :=
  if n < 24 then [32 * major + n]
  else if n < 2 ^ 8 then [32 * major + 24, n]
  else if n < 2 ^ 16 then (32 * major + 25) :: beBytes 2 n
  else if n < 2 ^ 32 then (32 * major + 26) :: beBytes 4 n
  else (32 * major + 27) :: beBytes 8 n

/-- Encoding of a CBOR unsigned integer (major type 0). -/
def encodeUInt (n : Nat) : List Nat := cborHeader 0 n

/-- Encoding of a CBOR integer: major type 0 for `0 ≤ i`, major type 1
with argument `-(i+1)` otherwise. -/
def encodeInt (i : Int) : List Nat :=
  if 0 ≤ i then cborHeader 0 i.toNat else cborHeader 1 (-(i + 1)).toNat

/-- Encoding of a CBOR byte string (major type 2). -/
def encodeBytes (bs : List Nat) : List Nat := cborHeader 2 bs.length ++ bs

/-- Encoding of a CBOR text string (major type 3); the argument is the
UTF-8 byte sequence of the text. -/
def encodeText (bs : List Nat) : List Nat := cborHeader 3 bs.length ++ bs

/-- Encoding of CBOR `null`. -/
def encodeNull : List Nat := [246]

/-- Modelled from the spec: `cbor::encode` serializes a tuple as a CBOR
array of definite length matching the tuple arity, i.e. the array header
followed by the concatenated element encodings (`payload`). -/
def encodeArray (arity : Nat) (payload : List Nat) : List Nat :=
  cborHeader 4 arity ++ payload

/-- Errors of the CBOR codec adapter. -/
inductive CborError where
  | truncated
  | wrongMajor
  | oddArity
  | badValue
  | trailing
  deriving DecidableEq, Repr

/-- Modelled from the spec: `cbor::array_to_map` rewrites, in place, the
leading major-type-4 (array) header of arity `2n` into a major-type-5
(map) header of arity `n`; payload bytes do not shift.  Errors: empty
buffer, leading byte not an array header, odd arity. -/
def array_to_map (bytes : List Nat) : Except CborError (List Nat) :=
  match bytes with
  | [] => .error .truncated
  | b :: rest =>
    if 128 ≤ b ∧ b ≤ 151 then
      -- one-byte array header, arity ≤ 23
      if (b - 128) % 2 = 0 then .ok ((160 + (b - 128) / 2) :: rest)
      else .error .oddArity
    else if b = 152 then
      -- array header with one-byte length field, arity ≤ 255
      match rest with
      | [] => .error .truncated
      | m :: rest2 =>
        if m % 2 = 0 then .ok (184 :: m / 2 :: rest2) else .error .oddArity
    else .error .wrongMajor

/-- Modelled from the spec: `cbor::map_to_array` is the inverse rewrite,
turning the leading map header of arity `n` into an array header of
arity `2n`. -/
def map_to_array (bytes : List Nat) : Except CborError (List Nat) :=
  match bytes with
  | [] => .error .truncated
  | b :: rest =>
    if 160 ≤ b ∧ b ≤ 183 then
      if 2 * (b - 160) < 24 then .ok ((128 + 2 * (b - 160)) :: rest)
      else .ok (152 :: 2 * (b - 160) :: rest)
    else if b = 184 then
      match rest with
      | [] => .error .truncated
      | m :: rest2 =>
        if 2 * m < 256 then .ok (152 :: 2 * m :: rest2) else .error .badValue
    else .error .wrongMajor

/-- Modelled from the spec: decoding of one CBOR header of the expected
major type, accepting any of the short forms. -/
def parseHeader (major : Nat) (bs : List Nat) : Except CborError (Nat × List Nat) :=
  match bs with
  | [] => .error .truncated
  | b :: rest =>
    if b / 32 = major then
      if b % 32 < 24 then .ok (b % 32, rest)
      else if b % 32 ≤ 27 then
        if 2 ^ (b % 32 - 24) ≤ rest.length then
          .ok (beVal (rest.take (2 ^ (b % 32 - 24))),
               rest.drop (2 ^ (b % 32 - 24)))
        else .error .truncated
      else .error .badValue
    else .error .wrongMajor

/-- Decoding of an unsigned integer (Rust `usize` target): only major
type 0 is accepted. -/
def parseUInt (bs : List Nat) : Except CborError (Nat × List Nat) :=
  parseHeader 0 bs

/-- Decoding of a signed integer (Rust `isize` target): major type 0
yields `n`, major type 1 yields `-(n+1)`. -/
def parseInt (bs : List Nat) : Except CborError (Int × List Nat) :=
  match bs with
  | [] => .error .truncated
  | b :: _ =>
    if b / 32 = 0 then
      match parseHeader 0 bs with
      | .ok (n, rest) => .ok ((n : Int), rest)
      | .error e => .error e
    else if b / 32 = 1 then
      match parseHeader 1 bs with
      | .ok (n, rest) => .ok (-(n + 1 : Int), rest)
      | .error e => .error e
    else .error .wrongMajor

/-- Decoding of a byte string (major type 2). -/
def parseBytes (bs : List Nat) : Except CborError (List Nat × List Nat) :=
  match parseHeader 2 bs with
  | .ok (n, rest) =>
    if n ≤ rest.length then .ok (rest.take n, rest.drop n) else .error .truncated
  | .error e => .error e

end Cbor

namespace Cose

open Cbor

/-- Errors of the COSE layer (`crate::Result` failure cases). -/
inductive CoseError where
  | cbor (e : CborError)
  | badKeypair
  | badPublicKey
  | badSignature
  | verifyFailed
  deriving DecidableEq, Repr

/-- UTF-8 bytes of the text `"Signature1"`. -/
def signature1Label : List Nat :=
  [83, 105, 103, 110, 97, 116, 117, 114, 101, 49]

/-- UTF-8 bytes of the text `"Encrypt0"`. -/
def encrypt0Label : List Nat :=
  [69, 110, 99, 114, 121, 112, 116, 48]

/-- The Ed25519 primitive consumed by `cose.rs` (the `ed25519_dalek`
crate): `sign` takes the 64-byte keypair (secret then public half) and a
message, `verify` takes the 32-byte public key, the message and a
64-byte signature. -/
structure Ed25519 where
  sign : List Nat → List Nat → List Nat
  verify : List Nat → List Nat → List Nat → Bool

/-- The bytes of the COSE `Sig_structure`: CBOR encoding of the tuple
`("Signature1", id_cred_x, th_i, cred_x)` with the three byte-string
arguments wrapped as CBOR byte strings. -/
def toBeSigned (id_cred_x th_i cred_x : List Nat) : List Nat :=
  encodeArray 4
    (encodeText signature1Label ++ encodeBytes id_cred_x ++
     encodeBytes th_i ++ encodeBytes cred_x)

/-- `cose::build_to_be_signed`: returns the `Sig_structure` bytes. -/
def build_to_be_signed (id_cred_x th_i cred_x : List Nat) :
    Except CoseError (List Nat) :=
  .ok (toBeSigned id_cred_x th_i cred_x)

/-- `cose::sign`: builds the `Sig_structure`, parses the keypair
(`Keypair::from_bytes` fails unless it is exactly 64 bytes) and signs. -/
def sign (E : Ed25519) (id_cred_x th_i cred_x keypair_bytes : List Nat) :
    Except CoseError (List Nat) :=
  match build_to_be_signed id_cred_x th_i cred_x with
  | .error e => .error e
  | .ok to_be_signed =>
    if keypair_bytes.length = 64 then .ok (E.sign keypair_bytes to_be_signed)
    else .error .badKeypair

/-- `cose::verify`: rebuilds the `Sig_structure`, parses the public key
(32 bytes) and the signature (64 bytes) and checks the signature. -/
def verify (E : Ed25519) (id_cred_x th_i cred_x public_key signature : List Nat) :
    Except CoseError Unit :=
  match build_to_be_signed id_cred_x th_i cred_x with
  | .error e => .error e
  | .ok to_be_signed =>
    if public_key.length = 32 then
      if signature.length = 64 then
        if E.verify public_key to_be_signed signature then .ok ()
        else .error .verifyFailed
      else .error .badSignature
    else .error .badPublicKey

/-- `cose::build_kdf_context`: CBOR encoding of the tuple
`(algorithm_id, [(); 3], [(); 3], (key_data_length, empty, other))`
where `[(); 3]` serializes as an array of three nulls and the inner
`SuppPubInfo` triple as a three-element array.  `algorithm_id` is given
by its UTF-8 bytes. -/
def kdfContext (algorithm_id : List Nat) (key_data_length : Nat)
    (other : List Nat) : List Nat :=
  encodeArray 4
    (encodeText algorithm_id ++
     encodeArray 3 (encodeNull ++ encodeNull ++ encodeNull) ++
     encodeArray 3 (encodeNull ++ encodeNull ++ encodeNull) ++
     encodeArray 3 (encodeUInt key_data_length ++ encodeBytes [] ++
       encodeBytes other))

/-- `cose::build_kdf_context` as the fallible interface of `cose.rs`. -/
def build_kdf_context (algorithm_id : List Nat) (key_data_length : Nat)
    (other : List Nat) : Except CoseError (List Nat) :=
  .ok (kdfContext algorithm_id key_data_length other)

/-- An Octet Key Pair (OKP) `COSE_Key` (struct `CoseKey` in `cose.rs`). -/
structure CoseKey where
  crv : Nat
  x : List Nat
  kty : Nat
  kid : List Nat
  deriving DecidableEq, Repr

/-- `cose::serialize_cose_key`: encodes the raw 8-tuple
`(-1, 4, -2, x, 1, 1, 2, kid)` as a CBOR array and rewrites the leading
array header into a map header. -/
def serialize_cose_key (x kid : List Nat) : Except CoseError (List Nat) :=
  match array_to_map
      (encodeArray 8
        (encodeInt (-1) ++ encodeInt 4 ++ encodeInt (-2) ++ encodeBytes x ++
         encodeInt 1 ++ encodeInt 1 ++ encodeInt 2 ++ encodeBytes kid)) with
  | .ok bytes => .ok bytes
  | .error e => .error (.cbor e)

/-- `cose::deserialize_cose_key`: rewrites the leading map header into an
array header and decodes the raw 8-tuple
`(isize, usize, isize, bytes, isize, usize, isize, bytes)`, moving the
items into a `CoseKey` by position without validating labels. -/
def deserialize_cose_key (bytes : List Nat) : Except CoseError CoseKey :=
  match map_to_array bytes with
  | .error e => .error (.cbor e)
  | .ok arr =>
    match parseHeader 4 arr with
    | .error e => .error (.cbor e)
    | .ok (arity, r0) =>
      if arity = 8 then
        match parseInt r0 with
        | .error e => .error (.cbor e)
        | .ok (_, r1) =>
          match parseUInt r1 with
          | .error e => .error (.cbor e)
          | .ok (crv, r2) =>
            match parseInt r2 with
            | .error e => .error (.cbor e)
            | .ok (_, r3) =>
              match parseBytes r3 with
              | .error e => .error (.cbor e)
              | .ok (x, r4) =>
                match parseInt r4 with
                | .error e => .error (.cbor e)
                | .ok (_, r5) =>
                  match parseUInt r5 with
                  | .error e => .error (.cbor e)
                  | .ok (kty, r6) =>
                    match parseInt r6 with
                    | .error e => .error (.cbor e)
                    | .ok (_, r7) =>
                      match parseBytes r7 with
                      | .error e => .error (.cbor e)
                      | .ok (kid, r8) =>
                        if r8 = [] then .ok ⟨crv, x, kty, kid⟩
                        else .error (.cbor .trailing)
      else .error (.cbor .badValue)

/-- `cose::build_id_cred_x`: encodes the pair `(4, kid)` as a CBOR array
and rewrites the leading array header into a map header, producing the
COSE header map `{4: kid}`. -/
def build_id_cred_x (kid : List Nat) : Except CoseError (List Nat) :=
  match array_to_map (encodeArray 2 (encodeInt 4 ++ encodeBytes kid)) with
  | .ok bytes => .ok bytes
  | .error e => .error (.cbor e)

/-- `cose::get_kid`: rewrites the leading map header into an array header
and decodes the pair `(usize, bytes)`, returning the second item. -/
def get_kid (id_cred_x : List Nat) : Except CoseError (List Nat) :=
  match map_to_array id_cred_x with
  | .error e => .error (.cbor e)
  | .ok arr =>
    match parseHeader 4 arr with
    | .error e => .error (.cbor e)
    | .ok (arity, r0) =>
      if arity = 2 then
        match parseUInt r0 with
        | .error e => .error (.cbor e)
        | .ok (_, r1) =>
          match parseBytes r1 with
          | .error e => .error (.cbor e)
          | .ok (kid, r2) =>
            if r2 = [] then .ok kid else .error (.cbor .trailing)
      else .error (.cbor .badValue)

/-- The bytes of the `COSE_Encrypt0` associated-data structure:
CBOR encoding of `("Encrypt0", empty, th_i)`. -/
def adOf (th_i : List Nat) : List Nat :=
  encodeArray 3
    (encodeText encrypt0Label ++ encodeBytes [] ++ encodeBytes th_i)

/-- `cose::build_ad`: CBOR encoding of `("Encrypt0", empty, th_i)`. -/
def build_ad (th_i : List Nat) : Except CoseError (List Nat) :=
  .ok (adOf th_i)

/-- The serialized `{4: kid}` COSE header map, the value produced by
`build_id_cred_x`. -/
def idCred (kid : List Nat) : List Nat :=
  161 :: 4 :: encodeBytes kid

/-- The serialized OKP `COSE_Key` map, the value produced by
`serialize_cose_key`. -/
def coseKeyMap (x kid : List Nat) : List Nat :=
  [164, 32, 4, 33] ++ encodeBytes x ++ [1, 1, 2] ++ encodeBytes kid

end Cose

namespace Edhoc

open Cbor Cose

/-- Byte-wise XOR of two byte strings (the stream cipher used for
`CIPHERTEXT_2`). -/
def xorBytes (a b : List Nat) : List Nat :=
  List.zipWith (fun x y => x ^^^ y) a b

/-- UTF-8 bytes of the label `"K_2e"`. -/
def k2eLabel : List Nat := [75, 95, 50, 101]

/-- UTF-8 bytes of the label `"IV-GENERATION"`. -/
def ivGenerationLabel : List Nat :=
  [73, 86, 45, 71, 69, 78, 69, 82, 65, 84, 73, 79, 78]

/-- UTF-8 bytes of the AEAD algorithm name `"AES-CCM-16-64-128"`. -/
def aeadAlgLabel : List Nat :=
  [65, 69, 83, 45, 67, 67, 77, 45, 49, 54, 45, 54, 52, 45, 49, 50, 56]

/-- UTF-8 bytes of the exporter label `"OSCORE Master Secret"`. -/
def masterSecretLabel : List Nat :=
  [79, 83, 67, 79, 82, 69, 32, 77, 97, 115, 116, 101, 114, 32, 83, 101,
   99, 114, 101, 116]

/-- UTF-8 bytes of the exporter label `"OSCORE Master Salt"`. -/
def masterSaltLabel : List Nat :=
  [79, 83, 67, 79, 82, 69, 32, 77, 97, 115, 116, 101, 114, 32, 83, 97,
   108, 116]

/-- UTF-8 bytes of the fixed diagnostic text carried by own error
messages in this model. -/
def errText : List Nat := [101, 114, 114, 111, 114]

/-- Modelled from the spec: the ready-to-send EDHOC `error_message`
payload of an `OwnError`, a CBOR sequence `(ERR_CODE, ERR_MSG)`. -/
def errPayload : List Nat := encodeUInt 1 ++ encodeText errText

/-- Modelled from the spec: the error taxonomy of `edhoc::error` — an
own error carries a ready-to-send `error_message` payload, a peer error
carries the text extracted from the peer's `error_message`. -/
inductive OwnOrPeerError where
  | ownError (payload : List Nat)
  | peerError (message : List Nat)
  deriving DecidableEq, Repr

/-- The cryptographic primitives consumed by the EDHOC core (section 6
of the spec): Ed25519, X25519 (`dhBase` produces the public key of a
secret, `dh` the shared secret), SHA-256, HKDF extract/expand and
AES-CCM-16-64-128. -/
structure Primitives where
  ed : Ed25519
  dhBase : List Nat → List Nat
  dh : List Nat → List Nat → List Nat
  hash : List Nat → List Nat
  extract : List Nat → List Nat → List Nat
  expand : List Nat → List Nat → Nat → List Nat
  aeadEnc : List Nat → List Nat → List Nat → List Nat → List Nat
  aeadDec : List Nat → List Nat → List Nat → List Nat → Option (List Nat)

/-- The algebraic facts the EDHOC core relies on of its primitives:
Diffie-Hellman commutativity, output lengths, AEAD round-trip and
signature correctness. -/
structure Good (P : Primitives) : Prop where
  dh_comm : ∀ a b, P.dh a (P.dhBase b) = P.dh b (P.dhBase a)
  base_len : ∀ sk, (P.dhBase sk).length = 32
  expand_len : ∀ prk info L, (P.expand prk info L).length = L
  aead_len : ∀ k iv aad pt, (P.aeadEnc k iv aad pt).length = pt.length + 8
  aead_dec_enc : ∀ k iv aad pt, P.aeadDec k iv aad (P.aeadEnc k iv aad pt) = some pt
  sign_len : ∀ kp m, (P.ed.sign kp m).length = 64
  verify_sign : ∀ kp m, P.ed.verify (kp.drop 32) m (P.ed.sign kp m) = true

/-- `EDHOC-KDF(prk, th, label, length)`: HKDF-Expand with the
`COSE_KDF_Context` of the label, `8·length` key-data bits and the
transcript hash as info. -/
def edhoc_kdf (P : Primitives) (prk th label : List Nat) (length : Nat) :
    List Nat :=
  P.expand prk (kdfContext label (8 * length) th) length

/-- Modelled from the spec: initiator state before message 1; holds the
connection identifier, the ephemeral X25519 secret, the `kid` and the
64-byte Ed25519 authentication keypair registered at `new`. -/
structure Msg1Sender where
  c_u : List Nat
  secret : List Nat
  kid : List Nat
  auth : List Nat
  deriving DecidableEq, Repr

/-- Modelled from the spec: initiator state awaiting message 2; retains
the exact `message_1` bytes for the transcript hash. -/
structure Msg2Receiver where
  secret : List Nat
  kid : List Nat
  auth : List Nat
  msg1 : List Nat
  deriving DecidableEq, Repr

/-- Modelled from the spec: initiator state ready to emit message 3. -/
structure Msg3Sender where
  prk : List Nat
  th_3 : List Nat
  c_r : List Nat
  kid : List Nat
  auth : List Nat
  deriving DecidableEq, Repr

/-- Modelled from the spec: responder state awaiting message 1. -/
structure Msg1Receiver where
  c_v : List Nat
  secret : List Nat
  kid : List Nat
  auth : List Nat
  deriving DecidableEq, Repr

/-- Modelled from the spec: responder state ready to emit message 2;
remembers `G_X`, the peer identifier and the raw `message_1` bytes. -/
structure Msg2Sender where
  c_v : List Nat
  secret : List Nat
  kid : List Nat
  auth : List Nat
  g_x : List Nat
  c_u : List Nat
  msg1 : List Nat
  deriving DecidableEq, Repr

/-- Modelled from the spec: responder state awaiting message 3. -/
structure Msg3Receiver where
  prk : List Nat
  th_3 : List Nat
  c_v : List Nat
  deriving DecidableEq, Repr

/-- Decoding of `message_1`, a CBOR sequence
`(METHOD_CORR, SUITES_I, G_X, C_I)` of four top-level items. -/
def parseMsg1 (bs : List Nat) :
    Except CborError (Nat × Nat × List Nat × List Nat) :=
  match parseUInt bs with
  | .error e => .error e
  | .ok (method, r1) =>
    match parseUInt r1 with
    | .error e => .error e
    | .ok (suite, r2) =>
      match parseBytes r2 with
      | .error e => .error e
      | .ok (g_x, r3) =>
        match parseBytes r3 with
        | .error e => .error e
        | .ok (c_u, r4) =>
          if r4 = [] then .ok (method, suite, g_x, c_u)
          else .error .trailing

/-- Modelled from the spec: `generate_message_1` emits the CBOR sequence
`(0, 0, G_X, C_I)` and retains its exact bytes. -/
def generate_message_1 (P : Primitives) (s : Msg1Sender) :
    List Nat × Msg2Receiver :=
  let msg1 := encodeUInt 0 ++ encodeUInt 0 ++
    encodeBytes (P.dhBase s.secret) ++ encodeBytes s.c_u
  (msg1, ⟨s.secret, s.kid, s.auth, msg1⟩)

/-- Modelled from the spec: `handle_message_1` parses `message_1`,
rejects an unsupported method or suite, and remembers `G_X`, `C_I` and
the raw bytes.  On failure the state is consumed and an error variant
returned. -/
def handle_message_1 (s : Msg1Receiver) (msg1 : List Nat) :
    Except OwnOrPeerError Msg2Sender :=
  match parseMsg1 msg1 with
  | .error _ => .error (.ownError errPayload)
  | .ok (method, suite, g_x, c_u) =>
    if method = 0 ∧ suite = 0 then
      .ok ⟨s.c_v, s.secret, s.kid, s.auth, g_x, c_u, msg1⟩
    else .error (.ownError errPayload)

/-- `TH_2 = H(message_1 ‖ CBOR(G_Y) ‖ CBOR(C_R))`. -/
def th2Of (P : Primitives) (msg1 g_y c_r : List Nat) : List Nat :=
  P.hash (msg1 ++ encodeBytes g_y ++ encodeBytes c_r)

/-- `TH_3 = H(TH_2 ‖ CBOR(CIPHERTEXT_2) ‖ CBOR(C_R))`. -/
def th3Of (P : Primitives) (th_2 ct2 c_r : List Nat) : List Nat :=
  P.hash (th_2 ++ encodeBytes ct2 ++ encodeBytes c_r)

/-- Modelled from the spec: `generate_message_2` computes `G_XY`,
`PRK_2e` and `TH_2`, signs the `Sig_structure` of its own credential,
XOR-encrypts `(id_cred_v, signature_v)` with the `"K_2e"` keystream and
emits `(G_Y, C_R, CIPHERTEXT_2)`. -/
def generate_message_2 (P : Primitives) (s : Msg2Sender) :
    List Nat × Msg3Receiver :=
  let g_y := P.dhBase s.secret
  let prk := P.extract [] (P.dh s.secret s.g_x)
  let th_2 := th2Of P s.msg1 g_y s.c_v
  let id_cred_v := idCred s.kid
  let cred_v := coseKeyMap (s.auth.drop 32) s.kid
  let sig := P.ed.sign s.auth (toBeSigned id_cred_v th_2 cred_v)
  let pt2 := encodeBytes id_cred_v ++ encodeBytes sig
  let ct2 := xorBytes pt2 (edhoc_kdf P prk th_2 k2eLabel pt2.length)
  let msg2 := encodeBytes g_y ++ encodeBytes s.c_v ++ encodeBytes ct2
  (msg2, ⟨prk, th3Of P th_2 ct2 s.c_v, s.c_v⟩)

/-- The values recovered while decoding `message_2`. -/
structure Msg2Data where
  g_y : List Nat
  c_r : List Nat
  ct2 : List Nat
  prk : List Nat
  th_2 : List Nat
  id_cred_v : List Nat
  sig_v : List Nat
  kid_v : List Nat
  deriving DecidableEq, Repr

/-- Modelled from the spec: the decoding part of `handle_message_2` —
parse `(G_Y, C_R, CIPHERTEXT_2)`, recompute `PRK_2e` and `TH_2`,
XOR-decrypt, and parse `(id_cred_v, signature_v)` plus the `kid`. -/
def msg2Decode (P : Primitives) (s : Msg2Receiver) (msg2 : List Nat) :
    Except CoseError Msg2Data :=
  match parseBytes msg2 with
  | .error e => .error (.cbor e)
  | .ok (g_y, r1) =>
    match parseBytes r1 with
    | .error e => .error (.cbor e)
    | .ok (c_r, r2) =>
      match parseBytes r2 with
      | .error e => .error (.cbor e)
      | .ok (ct2, r3) =>
        if r3 = [] then
          let prk := P.extract [] (P.dh s.secret g_y)
          let th_2 := th2Of P s.msg1 g_y c_r
          let pt2 := xorBytes ct2 (edhoc_kdf P prk th_2 k2eLabel ct2.length)
          match parseBytes pt2 with
          | .error e => .error (.cbor e)
          | .ok (id_cred_v, r4) =>
            match parseBytes r4 with
            | .error e => .error (.cbor e)
            | .ok (sig_v, r5) =>
              if r5 = [] then
                match get_kid id_cred_v with
                | .error e => .error e
                | .ok kid_v =>
                  .ok ⟨g_y, c_r, ct2, prk, th_2, id_cred_v, sig_v, kid_v⟩
              else .error (.cbor .trailing)
        else .error (.cbor .trailing)

/-- Modelled from the spec: `handle_message_2` decodes, rebuilds the
expected `Sig_structure` from the caller-supplied peer public key and
verifies the signature; on success it derives `TH_3`. -/
def handle_message_2 (P : Primitives) (s : Msg2Receiver)
    (msg2 v_public : List Nat) : Except OwnOrPeerError Msg3Sender :=
  match msg2Decode P s msg2 with
  | .error _ => .error (.ownError errPayload)
  | .ok d =>
    if P.ed.verify v_public
        (toBeSigned d.id_cred_v d.th_2 (coseKeyMap v_public d.kid_v))
        d.sig_v then
      .ok ⟨d.prk, th3Of P d.th_2 d.ct2 d.c_r, d.c_r, s.kid, s.auth⟩
    else .error (.ownError errPayload)

/-- Modelled from the spec: `generate_message_3` signs its credential
over `TH_3`, AEAD-encrypts `(id_cred_u, signature_u)`, emits
`(C_R, CIPHERTEXT_3)` and derives `TH_4` and the exporter outputs. -/
def generate_message_3 (P : Primitives) (s : Msg3Sender) :
    List Nat × List Nat × List Nat :=
  let id_cred_u := idCred s.kid
  let cred_u := coseKeyMap (s.auth.drop 32) s.kid
  let sig := P.ed.sign s.auth (toBeSigned id_cred_u s.th_3 cred_u)
  let pt3 := encodeBytes id_cred_u ++ encodeBytes sig
  let key3 := edhoc_kdf P s.prk s.th_3 aeadAlgLabel 16
  let iv3 := edhoc_kdf P s.prk s.th_3 ivGenerationLabel 13
  let ct3 := P.aeadEnc key3 iv3 (adOf s.th_3) pt3
  let msg3 := encodeBytes s.c_r ++ encodeBytes ct3
  let th_4 := P.hash (s.th_3 ++ encodeBytes ct3)
  (msg3, edhoc_kdf P s.prk th_4 masterSecretLabel 16,
   edhoc_kdf P s.prk th_4 masterSaltLabel 8)

/-- The values recovered while decoding `message_3`. -/
structure Msg3Data where
  c_r : List Nat
  ct3 : List Nat
  id_cred_u : List Nat
  sig_u : List Nat
  kid_u : List Nat
  deriving DecidableEq, Repr

/-- Modelled from the spec: the decoding part of `handle_message_3` —
parse `(C_R, CIPHERTEXT_3)`, AEAD-decrypt with the key and IV derived
from `PRK_3e2m` and `TH_3`, and parse `(id_cred_u, signature_u)` plus
the `kid`. -/
def msg3Decode (P : Primitives) (s : Msg3Receiver) (msg3 : List Nat) :
    Except CoseError Msg3Data :=
  match parseBytes msg3 with
  | .error e => .error (.cbor e)
  | .ok (c_r, r1) =>
    match parseBytes r1 with
    | .error e => .error (.cbor e)
    | .ok (ct3, r2) =>
      if r2 = [] then
        let key3 := edhoc_kdf P s.prk s.th_3 aeadAlgLabel 16
        let iv3 := edhoc_kdf P s.prk s.th_3 ivGenerationLabel 13
        match P.aeadDec key3 iv3 (adOf s.th_3) ct3 with
        | none => .error .verifyFailed
        | some pt3 =>
          match parseBytes pt3 with
          | .error e => .error (.cbor e)
          | .ok (id_cred_u, r3) =>
            match parseBytes r3 with
            | .error e => .error (.cbor e)
            | .ok (sig_u, r4) =>
              if r4 = [] then
                match get_kid id_cred_u with
                | .error e => .error e
                | .ok kid_u => .ok ⟨c_r, ct3, id_cred_u, sig_u, kid_u⟩
              else .error (.cbor .trailing)
      else .error (.cbor .trailing)

/-- Modelled from the spec: `handle_message_3` decodes, checks the
echoed connection identifier, verifies the peer signature with the
caller-supplied public key, derives `TH_4` and returns the OSCORE
master secret and salt. -/
def handle_message_3 (P : Primitives) (s : Msg3Receiver)
    (msg3 u_public : List Nat) : Except OwnOrPeerError (List Nat × List Nat) :=
  match msg3Decode P s msg3 with
  | .error _ => .error (.ownError errPayload)
  | .ok d =>
    if d.c_r = s.c_v then
      if P.ed.verify u_public
          (toBeSigned d.id_cred_u s.th_3 (coseKeyMap u_public d.kid_u))
          d.sig_u then
        let th_4 := P.hash (s.th_3 ++ encodeBytes d.ct3)
        .ok (edhoc_kdf P s.prk th_4 masterSecretLabel 16,
             edhoc_kdf P s.prk th_4 masterSaltLabel 8)
      else .error (.ownError errPayload)
    else .error (.ownError errPayload)

/-- The full U/V exchange of the example driver: each emitted message is
fed to the peer; the result carries U's and V's
`(master_secret, master_salt)` pairs. -/
def runHandshake (P : Primitives) (sk_u sk_v kp_u kp_v c_u c_v kid_u kid_v : List Nat) :
    Except OwnOrPeerError ((List Nat × List Nat) × (List Nat × List Nat)) :=
  let (msg1, r2) := generate_message_1 P ⟨c_u, sk_u, kid_u, kp_u⟩
  match handle_message_1 ⟨c_v, sk_v, kid_v, kp_v⟩ msg1 with
  | .error e => .error e
  | .ok s2v =>
    let (msg2, r3v) := generate_message_2 P s2v
    match handle_message_2 P r2 msg2 (kp_v.drop 32) with
    | .error e => .error e
    | .ok s3u =>
      let (msg3, out_u) := generate_message_3 P s3u
      match handle_message_3 P r3v msg3 (kp_u.drop 32) with
      | .error e => .error e
      | .ok out_v => .ok (out_u, out_v)

/-- A bundle of handshake inputs: the primitives, both ephemeral X25519
secrets, both 64-byte Ed25519 keypairs, both connection identifiers and
both key identifiers. -/
structure Session where
  P : Primitives
  sk_u : List Nat
  sk_v : List Nat
  kp_u : List Nat
  kp_v : List Nat
  c_u : List Nat
  c_v : List Nat
  kid_u : List Nat
  kid_v : List Nat

/-- The `message_1` bytes of the honest run. -/
def msg1Of (S : Session) : List Nat :=
  encodeUInt 0 ++ encodeUInt 0 ++ encodeBytes (S.P.dhBase S.sk_u) ++
    encodeBytes S.c_u

/-- The shared pseudorandom key `PRK_2e` (= `PRK_3e2m` = `PRK_4x3m`) of
the honest run, as computed by the responder. -/
def prkOf (S : Session) : List Nat :=
  S.P.extract [] (S.P.dh S.sk_v (S.P.dhBase S.sk_u))

/-- The transcript hash `TH_2` of the honest run. -/
def th2Run (S : Session) : List Nat :=
  th2Of S.P (msg1Of S) (S.P.dhBase S.sk_v) S.c_v

/-- The responder credential of the honest run. -/
def credVOf (S : Session) : List Nat :=
  coseKeyMap (S.kp_v.drop 32) S.kid_v

/-- The responder signature of the honest run. -/
def sigVOf (S : Session) : List Nat :=
  S.P.ed.sign S.kp_v (toBeSigned (idCred S.kid_v) (th2Run S) (credVOf S))

/-- The `plaintext_2` bytes of the honest run. -/
def pt2Of (S : Session) : List Nat :=
  encodeBytes (idCred S.kid_v) ++ encodeBytes (sigVOf S)

/-- The `"K_2e"` keystream of the honest run. -/
def ks2Of (S : Session) : List Nat :=
  edhoc_kdf S.P (prkOf S) (th2Run S) k2eLabel (pt2Of S).length

/-- The `CIPHERTEXT_2` bytes of the honest run. -/
def ct2Of (S : Session) : List Nat :=
  xorBytes (pt2Of S) (ks2Of S)

/-- The `message_2` bytes of the honest run. -/
def msg2Of (S : Session) : List Nat :=
  encodeBytes (S.P.dhBase S.sk_v) ++ encodeBytes S.c_v ++
    encodeBytes (ct2Of S)

/-- The transcript hash `TH_3` of the honest run. -/
def th3Run (S : Session) : List Nat :=
  th3Of S.P (th2Run S) (ct2Of S) S.c_v

/-- The initiator credential of the honest run. -/
def credUOf (S : Session) : List Nat :=
  coseKeyMap (S.kp_u.drop 32) S.kid_u

/-- The initiator signature of the honest run. -/
def sigUOf (S : Session) : List Nat :=
  S.P.ed.sign S.kp_u (toBeSigned (idCred S.kid_u) (th3Run S) (credUOf S))

/-- The `plaintext_3` bytes of the honest run. -/
def pt3Of (S : Session) : List Nat :=
  encodeBytes (idCred S.kid_u) ++ encodeBytes (sigUOf S)

/-- The AEAD key for `CIPHERTEXT_3` of the honest run. -/
def key3Of (S : Session) : List Nat :=
  edhoc_kdf S.P (prkOf S) (th3Run S) aeadAlgLabel 16

/-- The AEAD IV for `CIPHERTEXT_3` of the honest run. -/
def iv3Of (S : Session) : List Nat :=
  edhoc_kdf S.P (prkOf S) (th3Run S) ivGenerationLabel 13

/-- The `CIPHERTEXT_3` bytes of the honest run. -/
def ct3Of (S : Session) : List Nat :=
  S.P.aeadEnc (key3Of S) (iv3Of S) (adOf (th3Run S)) (pt3Of S)

/-- The `message_3` bytes of the honest run. -/
def msg3Of (S : Session) : List Nat :=
  encodeBytes S.c_v ++ encodeBytes (ct3Of S)

/-- The transcript hash `TH_4` of the honest run. -/
def th4Run (S : Session) : List Nat :=
  S.P.hash (th3Run S ++ encodeBytes (ct3Of S))

/-- The OSCORE master secret of the honest run. -/
def msOf (S : Session) : List Nat :=
  edhoc_kdf S.P (prkOf S) (th4Run S) masterSecretLabel 16

/-- The OSCORE master salt of the honest run. -/
def saltOf (S : Session) : List Nat :=
  edhoc_kdf S.P (prkOf S) (th4Run S) masterSaltLabel 8

end Edhoc

/-- Zero-padding/truncation of a byte string to exactly `k` bytes, used
by the concrete toy primitives below. -/
def fix (k : Nat) (bs : List Nat) : List Nat :=
  (bs ++ List.replicate k 0).take k

/-- A concrete toy signature scheme used to witness the theorems that
are parametric in the Ed25519 primitive. -/
def toyEd : Cose.Ed25519 :=
  { sign := fun kp m => fix 64 (kp.drop 32 ++ m)
    verify := fun pk m sig => decide (sig = fix 64 (pk ++ m)) }

/-- A concrete toy primitive suite satisfying `Edhoc.Good`, used to
witness the parametric handshake theorems. -/
def toyPrimitives : Edhoc.Primitives :=
  { ed := toyEd
    dhBase := fun sk => fix 32 sk
    dh := fun sk pk => List.zipWith (fun a b => a ^^^ b) (fix 32 sk) pk
    hash := fun m => fix 32 m
    extract := fun s ikm => fix 32 (s ++ ikm)
    expand := fun _prk _info L => List.replicate L 0
    aeadEnc := fun _k _iv _aad pt => pt ++ List.replicate 8 7
    aeadDec := fun _k _iv _aad ct =>
      if 8 ≤ ct.length ∧ ct.drop (ct.length - 8) = List.replicate 8 7 then
        some (ct.take (ct.length - 8))
      else none }

namespace Cbor

theorem beBytes_length (k n : Nat) : (beBytes k n).length = k := by
  simp [beBytes]

theorem beBytes_succ (k n : Nat) :
    beBytes (k + 1) n = n / 256 ^ k % 256 :: beBytes k n := by
  simp [beBytes, List.range_succ]

theorem beVal_foldl (k n acc : Nat) :
    (beBytes k n).foldl (fun acc b => acc * 256 + b) acc =
      acc * 256 ^ k + n % 256 ^ k := by
  induction k generalizing acc with
  | zero => simp [beBytes, Nat.mod_one]
  | succ k ih =>
    rw [beBytes_succ]
    simp only [List.foldl_cons]
    rw [ih]
    have h1 : n % 256 ^ (k + 1) / 256 ^ k = n / 256 ^ k % 256 := by
      rw [pow_succ]; exact Nat.mod_mul_right_div_self n (256 ^ k) 256
    have h2 : n % 256 ^ (k + 1) % 256 ^ k = n % 256 ^ k :=
      Nat.mod_mod_of_dvd n (pow_dvd_pow 256 (Nat.le_succ k))
    have h : n % 256 ^ (k + 1) = 256 ^ k * (n / 256 ^ k % 256) + n % 256 ^ k := by
      rw [← h1, ← h2]; exact (Nat.div_add_mod _ _).symm
    rw [h, pow_succ]
    ring

theorem beVal_beBytes (k n : Nat) (h : n < 256 ^ k) :
    beVal (beBytes k n) = n := by
  unfold beVal
  rw [beVal_foldl]
  simp [Nat.mod_eq_of_lt h]

theorem parseHeader_cons (major b : Nat) (rest : List Nat)
    (e1 : b / 32 = major) :
    parseHeader major (b :: rest) =
      (if b % 32 < 24 then .ok (b % 32, rest)
       else if b % 32 ≤ 27 then
         (if 2 ^ (b % 32 - 24) ≤ rest.length then
            .ok (beVal (rest.take (2 ^ (b % 32 - 24))),
                 rest.drop (2 ^ (b % 32 - 24)))
          else .error .truncated)
       else .error .badValue) := by
  simp only [parseHeader]
  rw [if_pos e1]

theorem parseHeader_cborHeader (major n : Nat) (rest : List Nat)
    (h : n < 2 ^ 64) :
    parseHeader major (cborHeader major n ++ rest) = .ok (n, rest) := by
  have key : ∀ ai k : Nat, 24 ≤ ai → ai ≤ 27 → 2 ^ (ai - 24) = k → n < 256 ^ k →
      parseHeader major ((32 * major + ai) :: (beBytes k n ++ rest)) = .ok (n, rest) := by
    intro ai k hai1 hai2 hk hn
    have e1 : (32 * major + ai) / 32 = major := by omega
    have e2 : (32 * major + ai) % 32 = ai := by omega
    have hlenb : (beBytes k n).length = k := beBytes_length k n
    have htake : (beBytes k n ++ rest).take k = beBytes k n := List.take_left' hlenb
    have hdrop : (beBytes k n ++ rest).drop k = rest := List.drop_left' hlenb
    have hle : k ≤ (beBytes k n ++ rest).length := by
      simp [hlenb]
    have hai3 : ¬ ai < 24 := by omega
    rw [parseHeader_cons major _ _ e1, e2, if_neg hai3, if_pos hai2, hk,
      if_pos hle, htake, hdrop, beVal_beBytes k n hn]
  by_cases h1 : n < 24
  · have hdr : cborHeader major n = [32 * major + n] := by
      unfold cborHeader
      rw [if_pos h1]
    have e1 : (32 * major + n) / 32 = major := by omega
    have e2 : (32 * major + n) % 32 = n := by omega
    rw [hdr, List.cons_append, List.nil_append, parseHeader_cons major _ _ e1, e2,
      if_pos h1]
  · by_cases h2 : n < 2 ^ 8
    · have hbe : beBytes 1 n = [n] := by
        have : n % 256 = n := by omega
        have hr : List.range 1 = [0] := rfl
        simp [beBytes, hr, this]
      have hdr : cborHeader major n = (32 * major + 24) :: beBytes 1 n := by
        unfold cborHeader
        rw [if_neg h1, if_pos h2, hbe]
      rw [hdr, List.cons_append]
      refine key 24 1 (by omega) (by omega) (by norm_num) ?_
      have e : (2 : Nat) ^ 8 = 256 ^ 1 := by norm_num
      exact e ▸ h2
    · by_cases h3 : n < 2 ^ 16
      · have hdr : cborHeader major n = (32 * major + 25) :: beBytes 2 n := by
          unfold cborHeader
          rw [if_neg h1, if_neg h2, if_pos h3]
        rw [hdr, List.cons_append]
        refine key 25 2 (by omega) (by omega) (by norm_num) ?_
        have e : (2 : Nat) ^ 16 = 256 ^ 2 := by norm_num
        exact e ▸ h3
      · by_cases h4 : n < 2 ^ 32
        · have hdr : cborHeader major n = (32 * major + 26) :: beBytes 4 n := by
            unfold cborHeader
            rw [if_neg h1, if_neg h2, if_neg h3, if_pos h4]
          rw [hdr, List.cons_append]
          refine key 26 4 (by omega) (by omega) (by norm_num) ?_
          have e : (2 : Nat) ^ 32 = 256 ^ 4 := by norm_num
          exact e ▸ h4
        · have hdr : cborHeader major n = (32 * major + 27) :: beBytes 8 n := by
            unfold cborHeader
            rw [if_neg h1, if_neg h2, if_neg h3, if_neg h4]
          rw [hdr, List.cons_append]
          refine key 27 8 (by omega) (by omega) (by norm_num) ?_
          have e : (2 : Nat) ^ 64 = 256 ^ 8 := by norm_num
          exact e ▸ h

theorem parseUInt_encodeUInt (n : Nat) (rest : List Nat) (h : n < 2 ^ 64) :
    parseUInt (encodeUInt n ++ rest) = .ok (n, rest) :=
  parseHeader_cborHeader 0 n rest h

theorem cborHeader_shape (major n : Nat) :
    ∃ ai tail, ai < 28 ∧ cborHeader major n = (32 * major + ai) :: tail := by
  unfold cborHeader
  by_cases h1 : n < 24
  · refine ⟨n, [], by omega, ?_⟩
    rw [if_pos h1]
  · by_cases h2 : n < 2 ^ 8
    · refine ⟨24, [n], by omega, ?_⟩
      rw [if_neg h1, if_pos h2]
    · by_cases h3 : n < 2 ^ 16
      · refine ⟨25, beBytes 2 n, by omega, ?_⟩
        rw [if_neg h1, if_neg h2, if_pos h3]
      · by_cases h4 : n < 2 ^ 32
        · refine ⟨26, beBytes 4 n, by omega, ?_⟩
          rw [if_neg h1, if_neg h2, if_neg h3, if_pos h4]
        · refine ⟨27, beBytes 8 n, by omega, ?_⟩
          rw [if_neg h1, if_neg h2, if_neg h3, if_neg h4]

theorem parseInt_encodeInt (i : Int) (rest : List Nat)
    (hlo : -(2 ^ 64 : Int) ≤ i) (hhi : i < 2 ^ 64) :
    parseInt (encodeInt i ++ rest) = .ok (i, rest) := by
  by_cases hpos : 0 ≤ i
  · have hlt : i.toNat < 2 ^ 64 := by omega
    obtain ⟨ai, tail, hai, hsh⟩ := cborHeader_shape 0 i.toNat
    have hhdr := parseHeader_cborHeader 0 i.toNat rest hlt
    have hb0 : cborHeader 0 i.toNat ++ rest = ai :: (tail ++ rest) := by
      rw [hsh]
      simp
    have hb : encodeInt i ++ rest = ai :: (tail ++ rest) := by
      rw [encodeInt, if_pos hpos, hb0]
    rw [hb0] at hhdr
    rw [hb]
    have hdiv : ai / 32 = 0 := by omega
    simp [parseInt, hdiv, hhdr, Int.toNat_of_nonneg hpos]
  · have hlt : (-(i + 1)).toNat < 2 ^ 64 := by omega
    obtain ⟨ai, tail, hai, hsh⟩ := cborHeader_shape 1 (-(i + 1)).toNat
    have hhdr := parseHeader_cborHeader 1 (-(i + 1)).toNat rest hlt
    have hb0 : cborHeader 1 (-(i + 1)).toNat ++ rest = (32 + ai) :: (tail ++ rest) := by
      rw [hsh]
      simp
    have hb : encodeInt i ++ rest = (32 + ai) :: (tail ++ rest) := by
      rw [encodeInt, if_neg hpos, hb0]
    rw [hb0] at hhdr
    rw [hb]
    have hdiv1 : (32 + ai) / 32 = 1 := by omega
    simp [parseInt, hdiv1, hhdr]
    omega

theorem parseBytes_encodeBytes (bs rest : List Nat) (h : bs.length < 2 ^ 64) :
    parseBytes (encodeBytes bs ++ rest) = .ok (bs, rest) := by
  have hhdr := parseHeader_cborHeader 2 bs.length (bs ++ rest) h
  have hb : encodeBytes bs ++ rest = cborHeader 2 bs.length ++ (bs ++ rest) := by
    simp [encodeBytes]
  rw [hb]
  unfold parseBytes
  rw [hhdr]
  have htake : (bs ++ rest).take bs.length = bs := List.take_left bs rest
  have hdrop : (bs ++ rest).drop bs.length = rest := List.drop_left bs rest
  have hle : bs.length ≤ (bs ++ rest).length := by simp
  simp [hle, htake, hdrop]

end Cbor

namespace Cbor

theorem cborHeader_length_le (m n : Nat) : (cborHeader m n).length ≤ 9 := by
  unfold cborHeader
  split_ifs <;> simp [beBytes_length]

theorem encodeBytes_length_le (bs : List Nat) :
    (encodeBytes bs).length ≤ bs.length + 9 := by
  have h := cborHeader_length_le 2 bs.length
  simp only [encodeBytes, List.length_append]
  omega

theorem encodeBytes_nil_parse (bs : List Nat) (h : bs.length < 2 ^ 64) :
    parseBytes (encodeBytes bs) = .ok (bs, []) := by
  have := parseBytes_encodeBytes bs [] h
  simpa using this

end Cbor

namespace Cose

open Cbor

theorem serialize_cose_key_eq (x kid : List Nat) :
    serialize_cose_key x kid = .ok (coseKeyMap x kid) := by
  simp [serialize_cose_key, array_to_map, encodeArray, cborHeader, encodeInt,
    coseKeyMap]

theorem build_id_cred_x_eq (kid : List Nat) :
    build_id_cred_x kid = .ok (idCred kid) := rfl

theorem get_kid_idCred (kid : List Nat) (h : kid.length < 2 ^ 64) :
    get_kid (idCred kid) = .ok kid := by
  have hm : map_to_array (idCred kid) = .ok (130 :: (4 :: encodeBytes kid)) := by
    simp [map_to_array, idCred]
  have hh : parseHeader 4 (130 :: (4 :: encodeBytes kid)) =
      .ok (2, 4 :: encodeBytes kid) := by
    simp [parseHeader]
  have hu : parseUInt (4 :: encodeBytes kid) = .ok (4, encodeBytes kid) := by
    simp [parseUInt, parseHeader]
  have hb : parseBytes (encodeBytes kid) = .ok (kid, []) :=
    encodeBytes_nil_parse kid h
  simp [get_kid, hm, hh, hu, hb]

end Cose

namespace Edhoc

open Cbor Cose

theorem xorBytes_length (a b : List Nat) :
    (xorBytes a b).length = min a.length b.length := by
  simp [xorBytes]

theorem xorBytes_cancel (a b : List Nat) (h : b.length = a.length) :
    xorBytes (xorBytes a b) b = a := by
  induction a generalizing b with
  | nil =>
    cases b with
    | nil => rfl
    | cons y ys => simp at h
  | cons x xs ih =>
    cases b with
    | nil => simp at h
    | cons y ys =>
      have hlen : ys.length = xs.length := by
        simpa using h
      simp only [xorBytes, List.zipWith_cons_cons]
      rw [Nat.xor_cancel_right y x]
      have ht := ih ys hlen
      simp only [xorBytes] at ht
      rw [ht]

theorem parseMsg1_ok (gx cu : List Nat) (h1 : gx.length < 2 ^ 64)
    (h2 : cu.length < 2 ^ 64) :
    parseMsg1 (encodeUInt 0 ++ encodeUInt 0 ++ encodeBytes gx ++ encodeBytes cu) =
      .ok (0, 0, gx, cu) := by
  have hassoc : encodeUInt 0 ++ encodeUInt 0 ++ encodeBytes gx ++ encodeBytes cu
      = 0 :: (0 :: (encodeBytes gx ++ encodeBytes cu)) := by
    simp [encodeUInt, cborHeader]
  rw [hassoc]
  have hu : ∀ rest : List Nat, parseUInt (0 :: rest) = .ok (0, rest) := by
    intro rest
    simp [parseUInt, parseHeader]
  have hb1 : parseBytes (encodeBytes gx ++ encodeBytes cu) = .ok (gx, encodeBytes cu) :=
    parseBytes_encodeBytes gx _ h1
  have hb2 : parseBytes (encodeBytes cu) = .ok (cu, []) :=
    encodeBytes_nil_parse cu h2
  simp [parseMsg1, hu, hb1, hb2]

end Edhoc


/-- C3: for all byte strings `id_cred_x`, `th_i`, `cred_x`,
`build_to_be_signed` returns the CBOR encoding of the 4-element array
`("Signature1", id_cred_x, th_i, cred_x)` with the three byte-string
arguments wrapped as CBOR byte strings; in particular for
`id_cred_x = A1 04 42 11 11`, `th_i = 22 22 22`, `cred_x = 55 55 55 55`
it returns exactly
`84 6A 53 69 67 6E 61 74 75 72 65 31 45 A1 04 42 11 11 43 22 22 22 44
55 55 55 55`. -/
theorem C3_build_to_be_signed :
    (∀ id_cred_x th_i cred_x : List Nat,
      Cose.build_to_be_signed id_cred_x th_i cred_x =
        .ok (Cbor.encodeArray 4
          (Cbor.encodeText Cose.signature1Label ++
           Cbor.encodeBytes id_cred_x ++ Cbor.encodeBytes th_i ++
           Cbor.encodeBytes cred_x))) ∧
    Cose.build_to_be_signed [161, 4, 66, 17, 17] [34, 34, 34] [85, 85, 85, 85] =
      .ok [132, 106, 83, 105, 103, 110, 97, 116, 117, 114, 101, 49, 69,
           161, 4, 66, 17, 17, 67, 34, 34, 34, 68, 85, 85, 85, 85] :=
  ⟨fun _ _ _ => rfl, rfl⟩

/-- C5: for all byte strings `x` and `kid`, `serialize_cose_key` returns
the serialized CBOR map `{-1: 4, -2: x, 1: 1, 2: kid}` with fields in
the order crv, x, kty, kid, obtained by CBOR-encoding the 8-element
array `(-1, 4, -2, x, 1, 1, 2, kid)` and rewriting the leading array
header into a map header; in particular for `x = 00 01 02 03` and
`kid = 04 05 06 07` it returns exactly
`A4 20 04 21 44 00 01 02 03 01 01 02 44 04 05 06 07`. -/
theorem C5_serialize_cose_key :
    (∀ x kid : List Nat,
      Cose.serialize_cose_key x kid =
        .ok ([164, 32, 4, 33] ++ Cbor.encodeBytes x ++ [1, 1, 2] ++
          Cbor.encodeBytes kid) ∧
      Cose.serialize_cose_key x kid =
        (Cbor.array_to_map
          (Cbor.encodeArray 8
            (Cbor.encodeInt (-1) ++ Cbor.encodeInt 4 ++ Cbor.encodeInt (-2) ++
             Cbor.encodeBytes x ++ Cbor.encodeInt 1 ++ Cbor.encodeInt 1 ++
             Cbor.encodeInt 2 ++ Cbor.encodeBytes kid))).mapError .cbor) ∧
    Cose.serialize_cose_key [0, 1, 2, 3] [4, 5, 6, 7] =
      .ok [164, 32, 4, 33, 68, 0, 1, 2, 3, 1, 1, 2, 68, 4, 5, 6, 7] :=
  ⟨fun x kid => ⟨Cose.serialize_cose_key_eq x kid, rfl⟩, rfl⟩

/-- C6: for every text `algorithm_id` (given by its UTF-8 bytes),
unsigned `key_data_length` and byte string `other`, `build_kdf_context`
returns the CBOR encoding of the 4-element array
`(algorithm_id, [null, null, null], [null, null, null],
(key_data_length, empty bytes, other))`; in particular
`build_kdf_context("IV-GENERATION", 104, AA AA)` returns exactly the 30
bytes `84 6D 49 56 2D 47 45 4E 45 52 41 54 49 4F 4E 83 F6 F6 F6 83 F6
F6 F6 83 18 68 40 42 AA AA`. -/
theorem C6_build_kdf_context :
    (∀ (algorithm_id : List Nat) (key_data_length : Nat) (other : List Nat),
      Cose.build_kdf_context algorithm_id key_data_length other =
        .ok (Cbor.encodeArray 4
          (Cbor.encodeText algorithm_id ++
           [131, 246, 246, 246] ++ [131, 246, 246, 246] ++
           Cbor.encodeArray 3
             (Cbor.encodeUInt key_data_length ++ [64] ++
              Cbor.encodeBytes other)))) ∧
    Cose.build_kdf_context Edhoc.ivGenerationLabel 104 [170, 170] =
      .ok [132, 109, 73, 86, 45, 71, 69, 78, 69, 82, 65, 84, 73, 79, 78,
           131, 246, 246, 246, 131, 246, 246, 246, 131, 24, 104, 64, 66,
           170, 170] :=
  ⟨fun _ _ _ => rfl, rfl⟩

/-- C7: for every byte string `kid` (of `usize`-representable length),
`build_id_cred_x kid` produces the serialized CBOR map `{4: kid}` and
`get_kid` applied to that output returns `kid`; in particular
`build_id_cred_x(00 01) = A1 04 42 00 01` and `get_kid` of
`A1 04 42 00 01` returns `00 01`. -/
theorem C7_id_cred_x_roundtrip :
    (∀ kid : List Nat, kid.length < 2 ^ 64 →
      Cose.build_id_cred_x kid = .ok (161 :: 4 :: Cbor.encodeBytes kid) ∧
      Cose.get_kid (161 :: 4 :: Cbor.encodeBytes kid) = .ok kid) ∧
    (Cose.build_id_cred_x [0, 1] = .ok [161, 4, 66, 0, 1] ∧
     Cose.get_kid [161, 4, 66, 0, 1] = .ok [0, 1]) :=
  ⟨fun kid h => ⟨Cose.build_id_cred_x_eq kid, Cose.get_kid_idCred kid h⟩,
   rfl, rfl⟩

/-- Witness for C7 at `kid = 00 01`. -/
theorem C7_id_cred_x_roundtrip_witness :
    Cose.build_id_cred_x [0, 1] = .ok (161 :: 4 :: Cbor.encodeBytes [0, 1]) ∧
    Cose.get_kid (161 :: 4 :: Cbor.encodeBytes [0, 1]) = .ok [0, 1] :=
  C7_id_cred_x_roundtrip.1 [0, 1] (by norm_num)

/-- C9: `get_kid` does not validate the COSE header-map label — for
every unsigned integer `n` (in `u64` range) and byte string `kid`,
`get_kid` applied to the serialized single-entry CBOR map `{n: kid}`
returns `kid`, even when `n` is not 4. -/
theorem C9_get_kid_ignores_label (n : Nat) (kid : List Nat)
    (hn : n < 2 ^ 64) (hkid : kid.length < 2 ^ 64) :
    Cose.get_kid (161 :: (Cbor.encodeUInt n ++ Cbor.encodeBytes kid)) =
      .ok kid := by
  have hm : Cbor.map_to_array (161 :: (Cbor.encodeUInt n ++ Cbor.encodeBytes kid)) =
      .ok (130 :: (Cbor.encodeUInt n ++ Cbor.encodeBytes kid)) := by
    simp [Cbor.map_to_array]
  have hh : Cbor.parseHeader 4 (130 :: (Cbor.encodeUInt n ++ Cbor.encodeBytes kid)) =
      .ok (2, Cbor.encodeUInt n ++ Cbor.encodeBytes kid) := by
    simp [Cbor.parseHeader]
  have hu : Cbor.parseUInt (Cbor.encodeUInt n ++ Cbor.encodeBytes kid) =
      .ok (n, Cbor.encodeBytes kid) :=
    Cbor.parseUInt_encodeUInt n _ hn
  have hb : Cbor.parseBytes (Cbor.encodeBytes kid) = .ok (kid, []) :=
    Cbor.encodeBytes_nil_parse kid hkid
  simp [Cose.get_kid, hm, hh, hu, hb]

/-- Witness for C9 at `n = 7`, `kid = 01 02` — label 7 is accepted. -/
theorem C9_get_kid_ignores_label_witness :
    Cose.get_kid (161 :: (Cbor.encodeUInt 7 ++ Cbor.encodeBytes [1, 2])) =
      .ok [1, 2] :=
  C9_get_kid_ignores_label 7 [1, 2] (by norm_num) (by norm_num)

theorem fix_length (k : Nat) (bs : List Nat) : (fix k bs).length = k := by
  simp [fix]

theorem fix_take_32 (a m : List Nat) (ha : a.length = 32) :
    (fix 64 (a ++ m)).take 32 = a := by
  unfold fix
  rw [List.take_take]
  have hm : min 32 64 = 32 := by norm_num
  rw [hm, List.append_assoc]
  exact List.take_left' ha

theorem toyEd_sign_length (kp m : List Nat) : (toyEd.sign kp m).length = 64 :=
  fix_length 64 _

theorem toyEd_wrong_key (pk kp m : List Nat) (hpk : pk.length = 32)
    (hkp : kp.length = 64) (hne : pk ≠ kp.drop 32) :
    toyEd.verify pk m (toyEd.sign kp m) = false := by
  have hd : (kp.drop 32).length = 32 := by
    simp [List.length_drop, hkp]
  show decide (fix 64 (kp.drop 32 ++ m) = fix 64 (pk ++ m)) = false
  apply decide_eq_false
  intro heq
  have h32 := congrArg (List.take 32) heq
  rw [fix_take_32 _ _ hd, fix_take_32 _ _ hpk] at h32
  exact hne h32.symm

/-- C8: `sign` returns an error (and not a signature) whenever
`keypair_bytes` is not a well-formed 64-byte Ed25519 keypair — in
particular for every `keypair_bytes` whose length is not 64 bytes,
because `Keypair::from_bytes` rejects any other length. -/
theorem C8_sign_rejects_bad_keypair (E : Cose.Ed25519)
    (id_cred_x th_i cred_x keypair_bytes : List Nat)
    (h : keypair_bytes.length ≠ 64) :
    Cose.sign E id_cred_x th_i cred_x keypair_bytes = .error .badKeypair := by
  simp [Cose.sign, Cose.build_to_be_signed, h]

/-- Witness for C8 at a 3-byte keypair. -/
theorem C8_sign_rejects_bad_keypair_witness :
    Cose.sign toyEd [] [] [] [1, 2, 3] = .error .badKeypair :=
  C8_sign_rejects_bad_keypair toyEd [] [] [] [1, 2, 3] (by decide)

/-- C4: wrong peer key rejection — for any Ed25519 primitive whose
signatures are 64 bytes and which rejects verification under any public
key other than the signer's (the property the spec assumes of the
primitive), for all `id_cred_x`, `th_i`, `cred_x`, every 64-byte
keypair and every 32-byte public key `pk` other than the keypair's
public half, a signature produced by `sign` fails `verify` under `pk`. -/
theorem C4_wrong_peer_key_rejection (E : Cose.Ed25519)
    (hlen : ∀ kp m, (E.sign kp m).length = 64)
    (hrej : ∀ pk kp m, pk.length = 32 → kp.length = 64 → pk ≠ kp.drop 32 →
      E.verify pk m (E.sign kp m) = false)
    (id_cred_x th_i cred_x kp pk sig : List Nat)
    (hkp : kp.length = 64)
    (hsig : Cose.sign E id_cred_x th_i cred_x kp = .ok sig)
    (hpk32 : pk.length = 32) (hne : pk ≠ kp.drop 32) :
    Cose.verify E id_cred_x th_i cred_x pk sig = .error .verifyFailed := by
  have hs : sig = E.sign kp (Cose.toBeSigned id_cred_x th_i cred_x) := by
    simp [Cose.sign, Cose.build_to_be_signed, hkp] at hsig
    exact hsig.symm
  subst hs
  have h64 : (E.sign kp (Cose.toBeSigned id_cred_x th_i cred_x)).length = 64 :=
    hlen _ _
  have hv := hrej pk kp (Cose.toBeSigned id_cred_x th_i cred_x) hpk32 hkp hne
  simp [Cose.verify, Cose.build_to_be_signed, hpk32, h64, hv]

/-- Witness for C4 with the toy scheme, the all-zero keypair and the
all-one public key. -/
theorem C4_wrong_peer_key_rejection_witness :
    Cose.verify toyEd [] [] [] (List.replicate 32 1)
      (toyEd.sign (List.replicate 64 0) (Cose.toBeSigned [] [] [])) =
      .error .verifyFailed :=
  C4_wrong_peer_key_rejection toyEd toyEd_sign_length toyEd_wrong_key
    [] [] [] (List.replicate 64 0) (List.replicate 32 1)
    (toyEd.sign (List.replicate 64 0) (Cose.toBeSigned [] [] []))
    (by decide) rfl (by decide) (by decide)

/-- C10 fails as stated: for the 8-element array
`(-1, -1, -2, x, 1, 1, 2, kid)` — integer labels `(-1, -2, 1, 2)` and
the integer `c = -1` — `deserialize_cose_key` of the corresponding map
returns an error, because the `crv` position is decoded at type
`usize`, which rejects negative integers. -/
theorem C10_counterexample :
    Cbor.array_to_map
      (Cbor.encodeArray 8
        (Cbor.encodeInt (-1) ++ Cbor.encodeInt (-1) ++ Cbor.encodeInt (-2) ++
         Cbor.encodeBytes [0, 1, 2, 3] ++ Cbor.encodeInt 1 ++ Cbor.encodeInt 1 ++
         Cbor.encodeInt 2 ++ Cbor.encodeBytes [4, 5, 6, 7])) =
      .ok [164, 32, 32, 33, 68, 0, 1, 2, 3, 1, 1, 2, 68, 4, 5, 6, 7] ∧
    Cose.deserialize_cose_key
        [164, 32, 32, 33, 68, 0, 1, 2, 3, 1, 1, 2, 68, 4, 5, 6, 7] =
      .error (.cbor .wrongMajor) :=
  ⟨rfl, rfl⟩

theorem encodeInt_natCast (n : Nat) :
    Cbor.encodeInt (n : Int) = Cbor.encodeUInt n := by
  simp [Cbor.encodeInt, Cbor.encodeUInt]

theorem map_to_array_164 (p : List Nat) :
    Cbor.map_to_array (164 :: p) = .ok (136 :: p) := by
  simp [Cbor.map_to_array]

theorem parseHeader_136 (p : List Nat) :
    Cbor.parseHeader 4 (136 :: p) = .ok (8, p) := by
  simp [Cbor.parseHeader]

/-- C10 amended: `deserialize_cose_key` decodes by position and does not
validate labels or fixed values — for every serialized 4-entry CBOR map
obtained from an 8-element array `(l1, c, l2, x, l3, k, l4, kid)` with
representable integer labels `l1..l4`, nonnegative integers `c` and `k`
(the `crv` and `kty` positions are decoded at type `usize`), and byte
strings `x` and `kid`, it returns `CoseKey` with `crv = c`, `x = x`,
`kty = k`, `kid = kid`, regardless of whether the labels are
`(-1, -2, 1, 2)` and regardless of whether `c = 4` and `k = 1`. -/
theorem C10_deserialize_positional (l1 l2 l3 l4 : Int) (c k : Nat)
    (x kid : List Nat)
    (hl1 : -(2 ^ 64 : Int) ≤ l1 ∧ l1 < 2 ^ 64)
    (hl2 : -(2 ^ 64 : Int) ≤ l2 ∧ l2 < 2 ^ 64)
    (hl3 : -(2 ^ 64 : Int) ≤ l3 ∧ l3 < 2 ^ 64)
    (hl4 : -(2 ^ 64 : Int) ≤ l4 ∧ l4 < 2 ^ 64)
    (hc : c < 2 ^ 64) (hk : k < 2 ^ 64)
    (hx : x.length < 2 ^ 64) (hkid : kid.length < 2 ^ 64) :
    Cose.deserialize_cose_key
      (164 :: (Cbor.encodeInt l1 ++ Cbor.encodeInt (c : Int) ++
        Cbor.encodeInt l2 ++ Cbor.encodeBytes x ++ Cbor.encodeInt l3 ++
        Cbor.encodeInt (k : Int) ++ Cbor.encodeInt l4 ++
        Cbor.encodeBytes kid)) = .ok ⟨c, x, k, kid⟩ := by
  have hshape : Cbor.encodeInt l1 ++ Cbor.encodeInt (c : Int) ++
      Cbor.encodeInt l2 ++ Cbor.encodeBytes x ++ Cbor.encodeInt l3 ++
      Cbor.encodeInt (k : Int) ++ Cbor.encodeInt l4 ++ Cbor.encodeBytes kid =
      Cbor.encodeInt l1 ++ (Cbor.encodeUInt c ++ (Cbor.encodeInt l2 ++
        (Cbor.encodeBytes x ++ (Cbor.encodeInt l3 ++ (Cbor.encodeUInt k ++
        (Cbor.encodeInt l4 ++ Cbor.encodeBytes kid)))))) := by
    simp [List.append_assoc, encodeInt_natCast]
  rw [hshape]
  have hb8 : Cbor.parseBytes (Cbor.encodeBytes kid) = .ok (kid, []) :=
    Cbor.encodeBytes_nil_parse kid hkid
  have hi7 : Cbor.parseInt (Cbor.encodeInt l4 ++ Cbor.encodeBytes kid) =
      .ok (l4, Cbor.encodeBytes kid) :=
    Cbor.parseInt_encodeInt l4 _ hl4.1 hl4.2
  have hu6 : Cbor.parseUInt (Cbor.encodeUInt k ++
      (Cbor.encodeInt l4 ++ Cbor.encodeBytes kid)) =
      .ok (k, Cbor.encodeInt l4 ++ Cbor.encodeBytes kid) :=
    Cbor.parseUInt_encodeUInt k _ hk
  have hi5 : Cbor.parseInt (Cbor.encodeInt l3 ++ (Cbor.encodeUInt k ++
      (Cbor.encodeInt l4 ++ Cbor.encodeBytes kid))) =
      .ok (l3, Cbor.encodeUInt k ++ (Cbor.encodeInt l4 ++ Cbor.encodeBytes kid)) :=
    Cbor.parseInt_encodeInt l3 _ hl3.1 hl3.2
  have hb4 : Cbor.parseBytes (Cbor.encodeBytes x ++ (Cbor.encodeInt l3 ++
      (Cbor.encodeUInt k ++ (Cbor.encodeInt l4 ++ Cbor.encodeBytes kid)))) =
      .ok (x, Cbor.encodeInt l3 ++ (Cbor.encodeUInt k ++
        (Cbor.encodeInt l4 ++ Cbor.encodeBytes kid))) :=
    Cbor.parseBytes_encodeBytes x _ hx
  have hi3 : Cbor.parseInt (Cbor.encodeInt l2 ++ (Cbor.encodeBytes x ++
      (Cbor.encodeInt l3 ++ (Cbor.encodeUInt k ++
      (Cbor.encodeInt l4 ++ Cbor.encodeBytes kid))))) =
      .ok (l2, Cbor.encodeBytes x ++ (Cbor.encodeInt l3 ++
        (Cbor.encodeUInt k ++ (Cbor.encodeInt l4 ++ Cbor.encodeBytes kid)))) :=
    Cbor.parseInt_encodeInt l2 _ hl2.1 hl2.2
  have hu2 : Cbor.parseUInt (Cbor.encodeUInt c ++ (Cbor.encodeInt l2 ++
      (Cbor.encodeBytes x ++ (Cbor.encodeInt l3 ++ (Cbor.encodeUInt k ++
      (Cbor.encodeInt l4 ++ Cbor.encodeBytes kid)))))) =
      .ok (c, Cbor.encodeInt l2 ++ (Cbor.encodeBytes x ++
        (Cbor.encodeInt l3 ++ (Cbor.encodeUInt k ++
        (Cbor.encodeInt l4 ++ Cbor.encodeBytes kid))))) :=
    Cbor.parseUInt_encodeUInt c _ hc
  have hi1 : Cbor.parseInt (Cbor.encodeInt l1 ++ (Cbor.encodeUInt c ++
      (Cbor.encodeInt l2 ++ (Cbor.encodeBytes x ++ (Cbor.encodeInt l3 ++
      (Cbor.encodeUInt k ++ (Cbor.encodeInt l4 ++ Cbor.encodeBytes kid))))))) =
      .ok (l1, Cbor.encodeUInt c ++ (Cbor.encodeInt l2 ++
        (Cbor.encodeBytes x ++ (Cbor.encodeInt l3 ++ (Cbor.encodeUInt k ++
        (Cbor.encodeInt l4 ++ Cbor.encodeBytes kid)))))) :=
    Cbor.parseInt_encodeInt l1 _ hl1.1 hl1.2
  simp [Cose.deserialize_cose_key, map_to_array_164, parseHeader_136,
    hi1, hu2, hi3, hb4, hi5, hu6, hi7, hb8]

/-- Witness for the amended C10 at labels `(-3, 7, 5, 2)` (not the COSE
labels), `c = 9` (not 4), `k = 6` (not 1), `x = 00 01`, `kid = 02`. -/
theorem C10_deserialize_positional_witness :
    Cose.deserialize_cose_key
      (164 :: (Cbor.encodeInt (-3) ++ Cbor.encodeInt ((9 : Nat) : Int) ++
        Cbor.encodeInt 7 ++ Cbor.encodeBytes [0, 1] ++ Cbor.encodeInt 5 ++
        Cbor.encodeInt ((6 : Nat) : Int) ++ Cbor.encodeInt 2 ++
        Cbor.encodeBytes [2])) = .ok ⟨9, [0, 1], 6, [2]⟩ :=
  C10_deserialize_positional (-3) 7 5 2 9 6 [0, 1] [2]
    (by norm_num) (by norm_num) (by norm_num) (by norm_num)
    (by norm_num) (by norm_num) (by norm_num) (by norm_num)

/-- C2: transitions are fallible and final — for each message-consuming
transition of the state machine, whenever decoding or verification of
its input fails, the transition produces no next state and returns an
error variant (never a panic: the model is total); and a transition
returns a next state only if decoding succeeded. -/
theorem C2_transitions_fallible_and_final (P : Edhoc.Primitives) :
    (∀ (s : Edhoc.Msg1Receiver) (m : List Nat) (e : Cbor.CborError),
      Edhoc.parseMsg1 m = .error e →
      Edhoc.handle_message_1 s m = .error (.ownError Edhoc.errPayload)) ∧
    (∀ (s : Edhoc.Msg1Receiver) (m : List Nat) (next : Edhoc.Msg2Sender),
      Edhoc.handle_message_1 s m = .ok next →
      ∃ g_x c_u, Edhoc.parseMsg1 m = .ok (0, 0, g_x, c_u)) ∧
    (∀ (s : Edhoc.Msg2Receiver) (m pk : List Nat) (e : Cose.CoseError),
      Edhoc.msg2Decode P s m = .error e →
      Edhoc.handle_message_2 P s m pk = .error (.ownError Edhoc.errPayload)) ∧
    (∀ (s : Edhoc.Msg2Receiver) (m pk : List Nat) (d : Edhoc.Msg2Data),
      Edhoc.msg2Decode P s m = .ok d →
      P.ed.verify pk
        (Cose.toBeSigned d.id_cred_v d.th_2 (Cose.coseKeyMap pk d.kid_v))
        d.sig_v = false →
      Edhoc.handle_message_2 P s m pk = .error (.ownError Edhoc.errPayload)) ∧
    (∀ (s : Edhoc.Msg3Receiver) (m pk : List Nat) (e : Cose.CoseError),
      Edhoc.msg3Decode P s m = .error e →
      Edhoc.handle_message_3 P s m pk = .error (.ownError Edhoc.errPayload)) ∧
    (∀ (s : Edhoc.Msg3Receiver) (m pk : List Nat) (d : Edhoc.Msg3Data),
      Edhoc.msg3Decode P s m = .ok d →
      P.ed.verify pk
        (Cose.toBeSigned d.id_cred_u s.th_3 (Cose.coseKeyMap pk d.kid_u))
        d.sig_u = false →
      Edhoc.handle_message_3 P s m pk = .error (.ownError Edhoc.errPayload)) := by
  refine ⟨?_, ?_, ?_, ?_, ?_, ?_⟩
  · intro s m e h
    simp [Edhoc.handle_message_1, h]
  · intro s m next h
    cases hp : Edhoc.parseMsg1 m with
    | error e => simp [Edhoc.handle_message_1, hp] at h
    | ok q =>
      obtain ⟨m0, su, gx, cu⟩ := q
      by_cases hc : m0 = 0 ∧ su = 0
      · obtain ⟨h1, h2⟩ := hc
        subst h1
        subst h2
        exact ⟨gx, cu, rfl⟩
      · simp [Edhoc.handle_message_1, hp, hc] at h
  · intro s m pk e h
    simp [Edhoc.handle_message_2, h]
  · intro s m pk d hd hv
    simp [Edhoc.handle_message_2, hd, hv]
  · intro s m pk e h
    simp [Edhoc.handle_message_3, h]
  · intro s m pk d hd hv
    by_cases hcr : d.c_r = s.c_v <;> simp [Edhoc.handle_message_3, hd, hv, hcr]

/-- Witness for C2: a one-byte buffer that is not a CBOR unsigned
integer makes `handle_message_1` and `handle_message_2` fail with an
own-error variant. -/
theorem C2_transitions_fallible_and_final_witness :
    Edhoc.handle_message_1
      (⟨[1], List.replicate 32 0, [2], List.replicate 64 0⟩ : Edhoc.Msg1Receiver)
      [255] = .error (.ownError Edhoc.errPayload) ∧
    Edhoc.handle_message_2 toyPrimitives
      (⟨List.replicate 32 0, [2], List.replicate 64 0, [0]⟩ : Edhoc.Msg2Receiver)
      [255] [] = .error (.ownError Edhoc.errPayload) :=
  ⟨(C2_transitions_fallible_and_final toyPrimitives).1 _ [255] .wrongMajor rfl,
   (C2_transitions_fallible_and_final toyPrimitives).2.2.1 _ [255] []
     (.cbor .wrongMajor) rfl⟩

namespace Cose

theorem idCred_length_le (kid : List Nat) :
    (idCred kid).length ≤ kid.length + 11 := by
  have h := Cbor.encodeBytes_length_le kid
  simp [idCred]
  omega

end Cose

namespace Edhoc

open Cbor Cose

theorem gen1_run (S : Session) :
    generate_message_1 S.P ⟨S.c_u, S.sk_u, S.kid_u, S.kp_u⟩ =
      (msg1Of S, ⟨S.sk_u, S.kid_u, S.kp_u, msg1Of S⟩) := rfl

theorem handle1_run (S : Session) (hP : Good S.P)
    (hcu : S.c_u.length < 2 ^ 64) :
    handle_message_1 ⟨S.c_v, S.sk_v, S.kid_v, S.kp_v⟩ (msg1Of S) =
      .ok ⟨S.c_v, S.sk_v, S.kid_v, S.kp_v, S.P.dhBase S.sk_u, S.c_u, msg1Of S⟩ := by
  have hgx : (S.P.dhBase S.sk_u).length < 2 ^ 64 := by
    rw [hP.base_len S.sk_u]
    norm_num
  have hp : parseMsg1 (msg1Of S) = .ok (0, 0, S.P.dhBase S.sk_u, S.c_u) :=
    parseMsg1_ok (S.P.dhBase S.sk_u) S.c_u hgx hcu
  simp [handle_message_1, hp]

theorem gen2_run (S : Session) :
    generate_message_2 S.P
        ⟨S.c_v, S.sk_v, S.kid_v, S.kp_v, S.P.dhBase S.sk_u, S.c_u, msg1Of S⟩ =
      (msg2Of S, ⟨prkOf S, th3Run S, S.c_v⟩) := rfl

theorem ks2_length (S : Session) (hP : Good S.P) :
    (ks2Of S).length = (pt2Of S).length :=
  hP.expand_len _ _ _

theorem ct2_length (S : Session) (hP : Good S.P) :
    (ct2Of S).length = (pt2Of S).length := by
  simp [ct2Of, xorBytes_length, ks2_length S hP]

theorem pt2_length_le (S : Session) (hP : Good S.P) :
    (pt2Of S).length ≤ S.kid_v.length + 93 := by
  have h1 := Cbor.encodeBytes_length_le (idCred S.kid_v)
  have h2 := Cbor.encodeBytes_length_le (sigVOf S)
  have h3 := Cose.idCred_length_le S.kid_v
  have h4 : (sigVOf S).length = 64 := hP.sign_len _ _
  simp only [pt2Of, List.length_append]
  omega

theorem decode2_run (S : Session) (hP : Good S.P)
    (hcv : S.c_v.length < 2 ^ 64) (hkidv : S.kid_v.length < 2 ^ 32) :
    msg2Decode S.P ⟨S.sk_u, S.kid_u, S.kp_u, msg1Of S⟩ (msg2Of S) =
      .ok ⟨S.P.dhBase S.sk_v, S.c_v, ct2Of S, prkOf S, th2Run S,
        idCred S.kid_v, sigVOf S, S.kid_v⟩ := by
  have p64 : (2 : Nat) ^ 64 = 18446744073709551616 := by norm_num
  have p32 : (2 : Nat) ^ 32 = 4294967296 := by norm_num
  have hkidva : S.kid_v.length < 4294967296 := by
    rw [p32] at hkidv
    exact hkidv
  have hpt2 := pt2_length_le S hP
  have hct2 := ct2_length S hP
  have hgy64 : (S.P.dhBase S.sk_v).length < 2 ^ 64 := by
    rw [hP.base_len S.sk_v]
    norm_num
  have hassoc : msg2Of S = Cbor.encodeBytes (S.P.dhBase S.sk_v) ++
      (Cbor.encodeBytes S.c_v ++ Cbor.encodeBytes (ct2Of S)) := by
    simp [msg2Of, List.append_assoc]
  have hb1 : Cbor.parseBytes (msg2Of S) =
      .ok (S.P.dhBase S.sk_v, Cbor.encodeBytes S.c_v ++ Cbor.encodeBytes (ct2Of S)) := by
    rw [hassoc]
    exact Cbor.parseBytes_encodeBytes _ _ hgy64
  have hb2 : Cbor.parseBytes (Cbor.encodeBytes S.c_v ++ Cbor.encodeBytes (ct2Of S)) =
      .ok (S.c_v, Cbor.encodeBytes (ct2Of S)) :=
    Cbor.parseBytes_encodeBytes _ _ hcv
  have hct2b : (ct2Of S).length < 2 ^ 64 := by
    rw [p64]
    omega
  have hb3 : Cbor.parseBytes (Cbor.encodeBytes (ct2Of S)) = .ok (ct2Of S, []) :=
    Cbor.encodeBytes_nil_parse _ hct2b
  have hdh : S.P.dh S.sk_u (S.P.dhBase S.sk_v) = S.P.dh S.sk_v (S.P.dhBase S.sk_u) :=
    hP.dh_comm S.sk_u S.sk_v
  have hprk : S.P.extract [] (S.P.dh S.sk_v (S.P.dhBase S.sk_u)) = prkOf S := rfl
  have hth2 : th2Of S.P (msg1Of S) (S.P.dhBase S.sk_v) S.c_v = th2Run S := rfl
  have hks2 : edhoc_kdf S.P (prkOf S) (th2Run S) k2eLabel (pt2Of S).length = ks2Of S := rfl
  have hxor : xorBytes (ct2Of S) (ks2Of S) = pt2Of S :=
    xorBytes_cancel (pt2Of S) (ks2Of S) (ks2_length S hP)
  have hicv64 : (idCred S.kid_v).length < 2 ^ 64 := by
    have := Cose.idCred_length_le S.kid_v
    rw [p64]
    omega
  have hb4 : Cbor.parseBytes (pt2Of S) =
      .ok (idCred S.kid_v, Cbor.encodeBytes (sigVOf S)) :=
    Cbor.parseBytes_encodeBytes _ _ hicv64
  have hsig64 : (sigVOf S).length < 2 ^ 64 := by
    have h4 : (sigVOf S).length = 64 := hP.sign_len _ _
    rw [h4, p64]
    norm_num
  have hb5 : Cbor.parseBytes (Cbor.encodeBytes (sigVOf S)) = .ok (sigVOf S, []) :=
    Cbor.encodeBytes_nil_parse _ hsig64
  have hkidv64 : S.kid_v.length < 2 ^ 64 := by
    rw [p64]
    omega
  have hkid : Cose.get_kid (idCred S.kid_v) = .ok S.kid_v :=
    Cose.get_kid_idCred _ hkidv64
  simp only [msg2Decode, hb1, hb2, hb3]
  simp only [hdh, hprk, hth2, hct2, hks2, hxor, hb4, hb5, hkid]
  simp

theorem handle2_run (S : Session) (hP : Good S.P)
    (hcv : S.c_v.length < 2 ^ 64) (hkidv : S.kid_v.length < 2 ^ 32) :
    handle_message_2 S.P ⟨S.sk_u, S.kid_u, S.kp_u, msg1Of S⟩ (msg2Of S)
        (S.kp_v.drop 32) =
      .ok ⟨prkOf S, th3Run S, S.c_v, S.kid_u, S.kp_u⟩ := by
  have hd := decode2_run S hP hcv hkidv
  have hcred : coseKeyMap (S.kp_v.drop 32) S.kid_v = credVOf S := rfl
  have hver : S.P.ed.verify (S.kp_v.drop 32)
      (toBeSigned (idCred S.kid_v) (th2Run S) (credVOf S)) (sigVOf S) = true :=
    hP.verify_sign S.kp_v _
  have hth3 : th3Of S.P (th2Run S) (ct2Of S) S.c_v = th3Run S := rfl
  simp only [handle_message_2, hd]
  simp only [hcred, hver, hth3]
  simp

theorem gen3_run (S : Session) :
    generate_message_3 S.P ⟨prkOf S, th3Run S, S.c_v, S.kid_u, S.kp_u⟩ =
      (msg3Of S, msOf S, saltOf S) := rfl

theorem pt3_length_le (S : Session) (hP : Good S.P) :
    (pt3Of S).length ≤ S.kid_u.length + 93 := by
  have h1 := Cbor.encodeBytes_length_le (idCred S.kid_u)
  have h2 := Cbor.encodeBytes_length_le (sigUOf S)
  have h3 := Cose.idCred_length_le S.kid_u
  have h4 : (sigUOf S).length = 64 := hP.sign_len _ _
  simp only [pt3Of, List.length_append]
  omega

theorem ct3_length (S : Session) (hP : Good S.P) :
    (ct3Of S).length = (pt3Of S).length + 8 :=
  hP.aead_len _ _ _ _

theorem decode3_run (S : Session) (hP : Good S.P)
    (hcv : S.c_v.length < 2 ^ 64) (hkidu : S.kid_u.length < 2 ^ 32) :
    msg3Decode S.P ⟨prkOf S, th3Run S, S.c_v⟩ (msg3Of S) =
      .ok ⟨S.c_v, ct3Of S, idCred S.kid_u, sigUOf S, S.kid_u⟩ := by
  have p64 : (2 : Nat) ^ 64 = 18446744073709551616 := by norm_num
  have p32 : (2 : Nat) ^ 32 = 4294967296 := by norm_num
  have hkidua : S.kid_u.length < 4294967296 := by
    rw [p32] at hkidu
    exact hkidu
  have hpt3 := pt3_length_le S hP
  have hct3 := ct3_length S hP
  have hct3b : (ct3Of S).length < 2 ^ 64 := by
    rw [p64]
    omega
  have hb1 : Cbor.parseBytes (msg3Of S) = .ok (S.c_v, Cbor.encodeBytes (ct3Of S)) :=
    Cbor.parseBytes_encodeBytes _ _ hcv
  have hb2 : Cbor.parseBytes (Cbor.encodeBytes (ct3Of S)) = .ok (ct3Of S, []) :=
    Cbor.encodeBytes_nil_parse _ hct3b
  have hkey : edhoc_kdf S.P (prkOf S) (th3Run S) aeadAlgLabel 16 = key3Of S := rfl
  have hiv : edhoc_kdf S.P (prkOf S) (th3Run S) ivGenerationLabel 13 = iv3Of S := rfl
  have hdec : S.P.aeadDec (key3Of S) (iv3Of S) (adOf (th3Run S)) (ct3Of S) =
      some (pt3Of S) :=
    hP.aead_dec_enc _ _ _ _
  have hicu64 : (idCred S.kid_u).length < 2 ^ 64 := by
    have := Cose.idCred_length_le S.kid_u
    rw [p64]
    omega
  have hb3 : Cbor.parseBytes (pt3Of S) =
      .ok (idCred S.kid_u, Cbor.encodeBytes (sigUOf S)) :=
    Cbor.parseBytes_encodeBytes _ _ hicu64
  have hsig64 : (sigUOf S).length < 2 ^ 64 := by
    have h4 : (sigUOf S).length = 64 := hP.sign_len _ _
    rw [h4, p64]
    norm_num
  have hb4 : Cbor.parseBytes (Cbor.encodeBytes (sigUOf S)) = .ok (sigUOf S, []) :=
    Cbor.encodeBytes_nil_parse _ hsig64
  have hkidu64 : S.kid_u.length < 2 ^ 64 := by
    rw [p64]
    omega
  have hkid : Cose.get_kid (idCred S.kid_u) = .ok S.kid_u :=
    Cose.get_kid_idCred _ hkidu64
  simp only [msg3Decode, hb1, hb2]
  simp only [hkey, hiv, hdec, hb3, hb4, hkid]
  simp

theorem handle3_run (S : Session) (hP : Good S.P)
    (hcv : S.c_v.length < 2 ^ 64) (hkidu : S.kid_u.length < 2 ^ 32) :
    handle_message_3 S.P ⟨prkOf S, th3Run S, S.c_v⟩ (msg3Of S)
        (S.kp_u.drop 32) = .ok (msOf S, saltOf S) := by
  have hd := decode3_run S hP hcv hkidu
  have hcred : coseKeyMap (S.kp_u.drop 32) S.kid_u = credUOf S := rfl
  have hver : S.P.ed.verify (S.kp_u.drop 32)
      (toBeSigned (idCred S.kid_u) (th3Run S) (credUOf S)) (sigUOf S) = true :=
    hP.verify_sign S.kp_u _
  have hth4 : S.P.hash (th3Run S ++ Cbor.encodeBytes (ct3Of S)) = th4Run S := rfl
  have hms : edhoc_kdf S.P (prkOf S) (th4Run S) masterSecretLabel 16 = msOf S := rfl
  have hsalt : edhoc_kdf S.P (prkOf S) (th4Run S) masterSaltLabel 8 = saltOf S := rfl
  simp only [handle_message_3, hd]
  simp only [hcred, hver, hth4, hms, hsalt]
  simp

theorem run_agreement (S : Session) (hP : Good S.P)
    (hcu : S.c_u.length < 2 ^ 64) (hcv : S.c_v.length < 2 ^ 64)
    (hkidu : S.kid_u.length < 2 ^ 32) (hkidv : S.kid_v.length < 2 ^ 32) :
    runHandshake S.P S.sk_u S.sk_v S.kp_u S.kp_v S.c_u S.c_v S.kid_u S.kid_v =
      .ok ((msOf S, saltOf S), (msOf S, saltOf S)) := by
  simp only [runHandshake, gen1_run S, handle1_run S hP hcu, gen2_run S,
    handle2_run S hP hcv hkidv, gen3_run S, handle3_run S hP hcv hkidu]

end Edhoc

theorem toy_good : Edhoc.Good toyPrimitives := by
  constructor
  · intro a b
    show List.zipWith (fun x y => x ^^^ y) (fix 32 a) (fix 32 b) =
      List.zipWith (fun x y => x ^^^ y) (fix 32 b) (fix 32 a)
    exact List.zipWith_comm_of_comm _ Nat.xor_comm _ _
  · intro sk
    exact fix_length 32 sk
  · intro prk info L
    show (List.replicate L 0).length = L
    simp
  · intro k iv aad pt
    show (pt ++ List.replicate 8 7).length = pt.length + 8
    simp
  · intro k iv aad pt
    have hlen : (pt ++ List.replicate 8 7).length = pt.length + 8 := by simp
    have h8 : (pt ++ List.replicate 8 7).length - 8 = pt.length := by
      rw [hlen]
      omega
    have hd : (pt ++ List.replicate 8 7).drop ((pt ++ List.replicate 8 7).length - 8) =
        List.replicate 8 7 := by
      rw [h8]
      exact List.drop_left _ _
    have ht : (pt ++ List.replicate 8 7).take ((pt ++ List.replicate 8 7).length - 8) =
        pt := by
      rw [h8]
      exact List.take_left _ _
    have hc : 8 ≤ (pt ++ List.replicate 8 7).length := by simp
    simp only [toyPrimitives]
    rw [if_pos ⟨hc, hd⟩, ht]
  · intro kp m
    exact toyEd_sign_length kp m
  · intro kp m
    show decide (fix 64 (kp.drop 32 ++ m) = fix 64 (kp.drop 32 ++ m)) = true
    simp

/-- C1: full-handshake agreement — for every primitive suite with the
algebraic properties the spec assumes (Diffie-Hellman commutativity,
output lengths, AEAD round-trip, signature correctness), every pair of
ephemeral X25519 secrets, Ed25519 static keypairs, connection
identifiers and key identifiers (of representable length), running the
Initiator track (`generate_message_1`, `handle_message_2`,
`generate_message_3`) against the Responder track (`handle_message_1`,
`generate_message_2`, `handle_message_3`), feeding each emitted message
to the peer, terminates with both parties returning identical
`(master_secret, master_salt)` pairs. -/
theorem C1_full_handshake_agreement (P : Edhoc.Primitives) (hP : Edhoc.Good P)
    (sk_u sk_v kp_u kp_v c_u c_v kid_u kid_v : List Nat)
    (hcu : c_u.length < 2 ^ 64) (hcv : c_v.length < 2 ^ 64)
    (hkidu : kid_u.length < 2 ^ 32) (hkidv : kid_v.length < 2 ^ 32) :
    ∃ master_secret master_salt,
      Edhoc.runHandshake P sk_u sk_v kp_u kp_v c_u c_v kid_u kid_v =
        .ok ((master_secret, master_salt), (master_secret, master_salt)) :=
  ⟨Edhoc.msOf ⟨P, sk_u, sk_v, kp_u, kp_v, c_u, c_v, kid_u, kid_v⟩,
   Edhoc.saltOf ⟨P, sk_u, sk_v, kp_u, kp_v, c_u, c_v, kid_u, kid_v⟩,
   Edhoc.run_agreement ⟨P, sk_u, sk_v, kp_u, kp_v, c_u, c_v, kid_u, kid_v⟩
     hP hcu hcv hkidu hkidv⟩

/-- Witness for C1: a concrete run with the toy primitives terminates
with both parties returning the same pair. -/
theorem C1_full_handshake_agreement_witness :
    ∃ master_secret master_salt,
      Edhoc.runHandshake toyPrimitives (List.replicate 32 1)
        (List.replicate 32 2) (List.replicate 64 3) (List.replicate 64 4)
        [10] [11] [12] [13] =
        .ok ((master_secret, master_salt), (master_secret, master_salt)) :=
  C1_full_handshake_agreement toyPrimitives toy_good
    (List.replicate 32 1) (List.replicate 32 2) (List.replicate 64 3)
    (List.replicate 64 4) [10] [11] [12] [13]
    (by norm_num) (by norm_num) (by norm_num) (by norm_num)

end Spec2Proof
